import Mathlib

/-!
Verification of the nginx log watcher (watcher.py): a shallow embedding of
its line parser, request window, failover detector, error-rate detector and
alert dispatcher, together with theorems about the spec claims.
-/

/-- Python re module whitespace class over ASCII, as used by the backslash-s
atoms of LOG_PATTERN. -/
def pyIsSpace (c : Char) : Bool :=
  c == ' ' || c == '\t' || c == '\n' || c == '\r' || c == '\x0b' || c == '\x0c'

/-- Character class of the upstream_status group of LOG_PATTERN: digits,
comma and space. -/
def isClassChar (c : Char) : Bool :=
  c.isDigit || c == ',' || c == ' '

/-- Match a literal string at the head of the input, returning the rest. -/
def stripLit : List Char → List Char → Option (List Char)
  | [], s => some s
  | _ :: _, [] => none
  | c :: cs, d :: ds => if c = d then stripLit cs ds else none

/-- One anchored attempt of LOG_PATTERN at the head of the input.  The
pattern is pool=([^WS]+)WS+release=([^WS]+)WS+upstream_status=([DIGIT, ]+);
since each greedy token run is followed by a mandatory whitespace run and
each whitespace run by a literal starting with a non-whitespace letter,
backtracking can never produce a match where maximal munch fails, so the
attempt is deterministic. -/
def matchAt (s : List Char) : Option (List Char × List Char × List Char) :=
  match stripLit "pool=".data s with
  | none => none
  | some s1 =>
    let pool := s1.takeWhile (fun c => !(pyIsSpace c))
    let t1 := s1.dropWhile (fun c => !(pyIsSpace c))
    if pool.isEmpty then none else
    let w1 := t1.takeWhile pyIsSpace
    let t2 := t1.dropWhile pyIsSpace
    if w1.isEmpty then none else
    match stripLit "release=".data t2 with
    | none => none
    | some s2 =>
      let rel := s2.takeWhile (fun c => !(pyIsSpace c))
      let t3 := s2.dropWhile (fun c => !(pyIsSpace c))
      if rel.isEmpty then none else
      let w2 := t3.takeWhile pyIsSpace
      let t4 := t3.dropWhile pyIsSpace
      if w2.isEmpty then none else
      match stripLit "upstream_status=".data t4 with
      | none => none
      | some s3 =>
        let stat := s3.takeWhile isClassChar
        if stat.isEmpty then none else some (pool, rel, stat)

/-- re.search of LOG_PATTERN: try the anchored match at each position, left
to right, returning the first success. -/
def searchLine : List Char → Option (List Char × List Char × List Char)
  | [] => none
  | c :: rest =>
    match matchAt (c :: rest) with
    | some g => some g
    | none => searchLine rest

/-- Python str.strip(): remove whitespace from both ends. -/
def pyStrip (l : List Char) : List Char :=
  ((l.dropWhile pyIsSpace).reverse.dropWhile pyIsSpace).reverse

/-- Value of a list of decimal digit characters. -/
def natOfDigits (l : List Char) : ℕ :=
  l.foldl (fun a c => a * 10 + (c.toNat - 48)) 0

/-- Python int(s) on the strings reachable here (characters drawn from
digits, comma and space): strip whitespace, then require a nonempty run of
digits; none models the ValueError raised otherwise. -/
def pyInt (l : List Char) : Option ℕ :=
  let t := pyStrip l
  if t.isEmpty then none
  else if t.all Char.isDigit then some (natOfDigits t) else none

/-- parse_log_line: search LOG_PATTERN, then convert the first
comma-separated entry of the upstream_status group with int().  Except.error
models the ValueError that int() raises on a malformed entry; Except.ok none
models the (None, None, None) return on a non-matching line. -/
def parse_log_line (line : String) : Except Unit (Option (String × String × ℕ)) :=
  match searchLine line.data with
  | none => .ok none
  | some (p, r, u) =>
    match pyInt ((pyStrip u).takeWhile (fun c => !(c == ','))) with
    | none => .error ()
    | some n => .ok (some (⟨p⟩, ⟨r⟩, n))





/-- The module-level mutable state of watcher.py: last_pool, request_window,
last_failover_alert and last_error_rate_alert.  Timestamps are rationals
(seconds); statuses are naturals. -/
structure WatcherState where
  lastPool : Option String
  window : List ℕ
  lastFailoverAlert : Option ℚ
  lastErrorRateAlert : Option ℚ
deriving DecidableEq

/-- collections.deque(maxlen = N).append: insert at the right, evicting from
the left down to capacity N. -/
def dequeAppend (N : ℕ) (w : List ℕ) (x : ℕ) : List ℕ :=
  if w.length < N then w ++ [x] else (w ++ [x]).drop (w.length + 1 - N)

/-- A sequence of deque appends starting from a given window. -/
def runAppends (N : ℕ) (w : List ℕ) (xs : List ℕ) : List ℕ :=
  xs.foldl (dequeAppend N) w

/-- check_failover: compare the observed pool with last_pool; on first
observation just record it; on a change, alert unless the failover cooldown
is active, and in every case advance last_pool.  The Bool is whether a
Failover alert was emitted. -/
def check_failover (cooldown : ℚ) (st : WatcherState) (pool : String) (now : ℚ) :
    WatcherState × Bool :=
  match st.lastPool with
  | none => ({ st with lastPool := some pool }, false)
  | some lp =>
    if pool ≠ lp then
      match st.lastFailoverAlert with
      | some t =>
        if now - t < cooldown then ({ st with lastPool := some pool }, false)
        else ({ st with lastPool := some pool, lastFailoverAlert := some now }, true)
      | none => ({ st with lastPool := some pool, lastFailoverAlert := some now }, true)
    else (st, false)

/-- check_error_rate: once the window is full, compute the 5xx rate over the
window and alert when it strictly exceeds the threshold and the error-rate
cooldown is not active.  The Bool is whether a HighErrorRate alert was
emitted. -/
def check_error_rate (N : ℕ) (threshold cooldown : ℚ) (st : WatcherState) (now : ℚ) :
    WatcherState × Bool :=
  if st.window.length < N then (st, false)
  else
    let error_count := (st.window.filter (fun s => decide (500 ≤ s))).length
    let error_rate := (error_count : ℚ) / (N : ℚ) * 100
    if threshold < error_rate then
      match st.lastErrorRateAlert with
      | some t =>
        if now - t < cooldown then (st, false)
        else ({ st with lastErrorRateAlert := some now }, true)
      | none => ({ st with lastErrorRateAlert := some now }, true)
    else (st, false)

/-- send_slack_alert: webhookConfigured models bool(SLACK_WEBHOOK_URL); resp
models the outcome of requests.post, none standing for a raised transport
exception and some c for a response with status code c.  The try/except
around the post turns every transport exception into a False return, so the
result type Except Unit Bool is always ok. -/
def send_slack_alert (webhookConfigured : Bool) (_message : String) (resp : Option ℕ) :
    Except Unit Bool :=
  if webhookConfigured = false then .ok false
  else
    match resp with
    | some c => .ok (decide (c = 200))
    | none => .ok false

/-- The body of the tail_log_file loop for one line: parse it and, when the
parsed pool and status are both truthy (pool non-None and nonempty, status
nonzero), append the status to the window and run both detectors.  The two
Bools are the alerts emitted by check_failover and check_error_rate; a
ValueError from parse_log_line propagates as Except.error. -/
def process_line (N : ℕ) (threshold cooldown : ℚ) (st : WatcherState) (line : String)
    (now : ℚ) : Except Unit (WatcherState × Bool × Bool) :=
  match parse_log_line line with
  | .error e => .error e
  | .ok none => .ok (st, false, false)
  | .ok (some (pool, _rel, status)) =>
    if pool ≠ "" ∧ status ≠ 0 then
      let st1 := { st with window := dequeAppend N st.window status }
      let r1 := check_failover cooldown st1 pool now
      let r2 := check_error_rate N threshold cooldown r1.1 now
      .ok (r2.1, r1.2, r2.2)
    else .ok (st, false, false)

/-- Run the failover detector over a sequence of (pool, time) observations,
counting emitted Failover alerts. -/
def runFailover (cooldown : ℚ) (st : WatcherState) :
    List (String × ℚ) → WatcherState × ℕ
  | [] => (st, 0)
  | (p, t) :: rest =>
    let r := check_failover cooldown st p t
    let k := runFailover cooldown r.1 rest
    (k.1, (if r.2 then 1 else 0) + k.2)

/-! ### Helper lemmas about list scanning -/

theorem takeWhile_append_all (q : Char → Bool) :
    ∀ (a b : List Char), (∀ c ∈ a, q c = true) →
      (a ++ b).takeWhile q = a ++ b.takeWhile q
  | [], _, _ => rfl
  | x :: a, b, h => by
    have hx : q x = true := h x (by simp)
    simp only [List.cons_append, List.takeWhile_cons, hx, if_true]
    rw [takeWhile_append_all q a b (fun c hc => h c (by simp [hc]))]

theorem dropWhile_append_all (q : Char → Bool) :
    ∀ (a b : List Char), (∀ c ∈ a, q c = true) →
      (a ++ b).dropWhile q = b.dropWhile q
  | [], _, _ => rfl
  | x :: a, b, h => by
    have hx : q x = true := h x (by simp)
    simp only [List.cons_append, List.dropWhile_cons, hx, if_true]
    exact dropWhile_append_all q a b (fun c hc => h c (by simp [hc]))

theorem takeWhile_head_neg (q : Char → Bool) (b : List Char)
    (hb : ∀ c, b.head? = some c → q c = false) : b.takeWhile q = [] := by
  cases b with
  | nil => rfl
  | cons c t => simp [List.takeWhile_cons, hb c rfl]

theorem dropWhile_head_neg (q : Char → Bool) (b : List Char)
    (hb : ∀ c, b.head? = some c → q c = false) : b.dropWhile q = b := by
  cases b with
  | nil => rfl
  | cons c t => simp [List.dropWhile_cons, hb c rfl]

theorem seg_take (q : Char → Bool) (a b : List Char) (ha : ∀ c ∈ a, q c = true)
    (hb : ∀ c, b.head? = some c → q c = false) : (a ++ b).takeWhile q = a := by
  rw [takeWhile_append_all q a b ha, takeWhile_head_neg q b hb, List.append_nil]

theorem seg_drop (q : Char → Bool) (a b : List Char) (ha : ∀ c ∈ a, q c = true)
    (hb : ∀ c, b.head? = some c → q c = false) : (a ++ b).dropWhile q = b := by
  rw [dropWhile_append_all q a b ha, dropWhile_head_neg q b hb]

theorem dropWhile_all_neg (q : Char → Bool) (l : List Char)
    (h : ∀ c ∈ l, q c = false) : l.dropWhile q = l := by
  cases l with
  | nil => rfl
  | cons c t => simp [List.dropWhile_cons, h c (by simp)]

theorem stripLit_append : ∀ (lit s : List Char), stripLit lit (lit ++ s) = some s
  | [], _ => rfl
  | c :: cs, s => by simp [stripLit, stripLit_append cs s]

theorem matchAt_none_of_no_lit (s : List Char)
    (h : stripLit "pool=".data s = none) : matchAt s = none := by
  unfold matchAt
  rw [h]

theorem head_release_not_space (R : List Char) :
    ∀ c, (("release=".data : List Char) ++ R).head? = some c → pyIsSpace c = false := by
  intro c hc
  have h : ('r' : Char) = c := by simpa using hc
  rw [← h]
  rfl

theorem head_upstream_not_space (R : List Char) :
    ∀ c, (("upstream_status=".data : List Char) ++ R).head? = some c → pyIsSpace c = false := by
  intro c hc
  have h : ('u' : Char) = c := by simpa using hc
  rw [← h]
  rfl

/-- The anchored match succeeds on a line that starts with the three tokens
in pattern order, and extracts exactly the three groups. -/
theorem matchAt_core (p w1 r w2 u post : List Char)
    (hp0 : p ≠ []) (hp : ∀ c ∈ p, pyIsSpace c = false)
    (hw10 : w1 ≠ []) (hw1 : ∀ c ∈ w1, pyIsSpace c = true)
    (hr0 : r ≠ []) (hr : ∀ c ∈ r, pyIsSpace c = false)
    (hw20 : w2 ≠ []) (hw2 : ∀ c ∈ w2, pyIsSpace c = true)
    (hu0 : u ≠ []) (hu : ∀ c ∈ u, isClassChar c = true)
    (hpost : ∀ c, post.head? = some c → isClassChar c = false) :
    matchAt ("pool=".data ++ p ++ w1 ++ "release=".data ++ r ++ w2 ++
      "upstream_status=".data ++ u ++ post) = some (p, r, u) := by
  obtain ⟨cp, p', rfl⟩ := List.exists_cons_of_ne_nil hp0
  obtain ⟨c1, w1', rfl⟩ := List.exists_cons_of_ne_nil hw10
  obtain ⟨cr, r', rfl⟩ := List.exists_cons_of_ne_nil hr0
  obtain ⟨c2, w2', rfl⟩ := List.exists_cons_of_ne_nil hw20
  obtain ⟨cu, u', rfl⟩ := List.exists_cons_of_ne_nil hu0
  have hpB : ∀ c ∈ cp :: p', (fun c => !(pyIsSpace c)) c = true := by
    intro c hc; simp [hp c hc]
  have hrB : ∀ c ∈ cr :: r', (fun c => !(pyIsSpace c)) c = true := by
    intro c hc; simp [hr c hc]
  have hw1h : ∀ c, ((c1 :: w1') ++ ("release=".data ++ ((cr :: r') ++ ((c2 :: w2') ++
      ("upstream_status=".data ++ ((cu :: u') ++ post)))))).head? = some c →
      (fun c => !(pyIsSpace c)) c = false := by
    intro c hc
    have h : c1 = c := by simpa using hc
    simp [← h, hw1 c1 (by simp)]
  have hw2h : ∀ c, ((c2 :: w2') ++ ("upstream_status=".data ++ ((cu :: u') ++
      post))).head? = some c → (fun c => !(pyIsSpace c)) c = false := by
    intro c hc
    have h : c2 = c := by simpa using hc
    simp [← h, hw2 c2 (by simp)]
  rw [show ("pool=".data ++ (cp :: p') ++ (c1 :: w1') ++ "release=".data ++ (cr :: r') ++
      (c2 :: w2') ++ "upstream_status=".data ++ (cu :: u') ++ post : List Char)
      = "pool=".data ++ ((cp :: p') ++ ((c1 :: w1') ++ ("release=".data ++ ((cr :: r') ++
        ((c2 :: w2') ++ ("upstream_status=".data ++ ((cu :: u') ++ post)))))))
      from by simp [List.append_assoc]]
  unfold matchAt
  rw [stripLit_append]
  dsimp only
  rw [seg_take _ _ _ hpB hw1h, seg_drop _ _ _ hpB hw1h]
  dsimp only [List.isEmpty]
  rw [seg_take pyIsSpace (c1 :: w1') _ hw1 (head_release_not_space _),
    seg_drop pyIsSpace (c1 :: w1') _ hw1 (head_release_not_space _)]
  dsimp only [List.isEmpty]
  rw [stripLit_append]
  dsimp only
  rw [seg_take _ _ _ hrB hw2h, seg_drop _ _ _ hrB hw2h]
  dsimp only [List.isEmpty]
  rw [seg_take pyIsSpace (c2 :: w2') _ hw2 (head_upstream_not_space _),
    seg_drop pyIsSpace (c2 :: w2') _ hw2 (head_upstream_not_space _)]
  dsimp only [List.isEmpty]
  rw [stripLit_append]
  dsimp only
  rw [seg_take isClassChar (cu :: u') post hu hpost]
  dsimp only [List.isEmpty]
  simp

/-- The left-to-right scan returns the anchored match at the end of a
leading context in which no anchored attempt can even read the pool=
literal. -/
theorem searchLine_append (pre core : List Char) (g : List Char × List Char × List Char)
    (hpre : ∀ i < pre.length, stripLit "pool=".data ((pre ++ core).drop i) = none)
    (hcore : matchAt core = some g) :
    searchLine (pre ++ core) = some g := by
  induction pre with
  | nil =>
    rw [List.nil_append]
    cases core with
    | nil => simp [matchAt, stripLit] at hcore
    | cons c t => simp [searchLine, hcore]
  | cons c pre ih =>
    have h0 := hpre 0 (by simp)
    have hm : matchAt (c :: (pre ++ core)) = none := by
      apply matchAt_none_of_no_lit
      simpa using h0
    rw [List.cons_append, searchLine, hm]
    exact ih fun i hi => by
      have h := hpre (i + 1) (by simp; omega)
      simpa using h

/-- Claim C2 (amended): a line of the form
context ++ pool=TOKEN ws release=TOKEN ws upstream_status=LIST ++ trailer
parses to a record with exactly those three extracted values, for arbitrary
leading context in which no anchored attempt can read the pool= literal and
an arbitrary trailer not extending the status list; the three tokens must
appear in this fixed order separated by whitespace. -/
theorem parse_ordered_tokens
    (pre p w1 r w2 u post : List Char) (n : ℕ)
    (hp0 : p ≠ []) (hp : ∀ c ∈ p, pyIsSpace c = false)
    (hw10 : w1 ≠ []) (hw1 : ∀ c ∈ w1, pyIsSpace c = true)
    (hr0 : r ≠ []) (hr : ∀ c ∈ r, pyIsSpace c = false)
    (hw20 : w2 ≠ []) (hw2 : ∀ c ∈ w2, pyIsSpace c = true)
    (hu0 : u ≠ []) (hu : ∀ c ∈ u, isClassChar c = true)
    (hpost : ∀ c, post.head? = some c → isClassChar c = false)
    (hpre : ∀ i < pre.length, stripLit "pool=".data
      ((pre ++ ("pool=".data ++ p ++ w1 ++ "release=".data ++ r ++ w2 ++
        "upstream_status=".data ++ u ++ post)).drop i) = none)
    (hn : pyInt ((pyStrip u).takeWhile (fun c => !(c == ','))) = some n) :
    parse_log_line ⟨pre ++ ("pool=".data ++ p ++ w1 ++ "release=".data ++ r ++ w2 ++
      "upstream_status=".data ++ u ++ post)⟩ = .ok (some (⟨p⟩, ⟨r⟩, n)) := by
  have hm : matchAt ("pool=".data ++ p ++ w1 ++ "release=".data ++ r ++ w2 ++
      "upstream_status=".data ++ u ++ post) = some (p, r, u) :=
    matchAt_core p w1 r w2 u post hp0 hp hw10 hw1 hr0 hr hw20 hw2 hu0 hu hpost
  have hs : searchLine (pre ++ ("pool=".data ++ p ++ w1 ++ "release=".data ++ r ++ w2 ++
      "upstream_status=".data ++ u ++ post)) = some (p, r, u) :=
    searchLine_append pre _ _ hpre hm
  unfold parse_log_line
  rw [show (⟨pre ++ ("pool=".data ++ p ++ w1 ++ "release=".data ++ r ++ w2 ++
    "upstream_status=".data ++ u ++ post)⟩ : String).data
    = pre ++ ("pool=".data ++ p ++ w1 ++ "release=".data ++ r ++ w2 ++
      "upstream_status=".data ++ u ++ post) from rfl]
  rw [hs]
  dsimp only
  rw [hn]

theorem dropWhile_append_keep_tail (q : Char → Bool) (a b : List Char)
    (hb : ∀ c, b.head? = some c → q c = false) :
    (a ++ b).dropWhile q = a.dropWhile q ++ b := by
  induction a with
  | nil => simp [dropWhile_head_neg q b hb]
  | cons x t ih =>
    cases hqx : q x
    · simp [List.dropWhile_cons, hqx]
    · simp [List.dropWhile_cons, hqx, ih]

theorem digit_not_space (c : Char) (h : c.isDigit = true) : pyIsSpace c = false := by
  cases hsp : pyIsSpace c
  · rfl
  · exfalso
    simp [pyIsSpace] at hsp
    rcases hsp with ((((h1 | h1) | h1) | h1) | h1) | h1 <;> subst h1 <;>
      exact absurd h (by decide)

theorem digit_ne_comma (c : Char) (h : c.isDigit = true) : (c == ',') = false := by
  cases hc : (c == ',')
  · rfl
  · exfalso
    have h1 : c = ',' := by simpa using hc
    subst h1
    exact absurd h (by decide)

/-- Stripping and then taking the first comma-separated entry of a list that
starts with a nonempty digit run followed by a comma returns exactly that
digit run. -/
theorem pyStrip_first_comma (d rest : List Char) (hd0 : d ≠ [])
    (hd : ∀ c ∈ d, c.isDigit = true) :
    (pyStrip (d ++ ',' :: rest)).takeWhile (fun c => !(c == ',')) = d := by
  obtain ⟨c0, d', rfl⟩ := List.exists_cons_of_ne_nil hd0
  unfold pyStrip
  rw [dropWhile_head_neg pyIsSpace ((c0 :: d') ++ ',' :: rest) (by
    intro c hc
    have h : c0 = c := by simpa using hc
    rw [← h]
    exact digit_not_space c0 (hd c0 (by simp)))]
  rw [show ((c0 :: d') ++ ',' :: rest).reverse
      = rest.reverse ++ ',' :: (c0 :: d').reverse from by simp]
  rw [dropWhile_append_keep_tail pyIsSpace rest.reverse (',' :: (c0 :: d').reverse) (by
    intro c hc
    have h : (',' : Char) = c := by simpa using hc
    rw [← h]
    rfl)]
  rw [show ((rest.reverse.dropWhile pyIsSpace) ++ ',' :: (c0 :: d').reverse).reverse
      = (c0 :: d') ++ ',' :: (rest.reverse.dropWhile pyIsSpace).reverse from by simp]
  exact seg_take _ _ _
    (fun c hc => by simp [digit_ne_comma c (hd c hc)])
    (fun c hc => by
      have h : (',' : Char) = c := by simpa using hc
      rw [← h]
      rfl)

theorem pyInt_digits (d : List Char) (hd0 : d ≠ []) (hd : ∀ c ∈ d, c.isDigit = true) :
    pyInt d = some (natOfDigits d) := by
  have hstrip : pyStrip d = d := by
    unfold pyStrip
    rw [dropWhile_all_neg pyIsSpace d (fun c hc => digit_not_space c (hd c hc))]
    rw [dropWhile_all_neg pyIsSpace d.reverse
      (fun c hc => digit_not_space c (hd c (List.mem_reverse.1 hc)))]
    exact List.reverse_reverse d
  unfold pyInt
  dsimp only
  rw [hstrip]
  rw [if_neg (by obtain ⟨c0, d', rfl⟩ := List.exists_cons_of_ne_nil hd0; simp)]
  rw [if_pos (List.all_eq_true.2 hd)]

/-- Claim C7: on a line whose upstream_status value is a multi-entry list
(a digit run, a comma, then anything else the pattern accepts), the record
carries the integer value of the first entry only. -/
theorem parse_first_status (p w1 r w2 d rest post : List Char)
    (hp0 : p ≠ []) (hp : ∀ c ∈ p, pyIsSpace c = false)
    (hw10 : w1 ≠ []) (hw1 : ∀ c ∈ w1, pyIsSpace c = true)
    (hr0 : r ≠ []) (hr : ∀ c ∈ r, pyIsSpace c = false)
    (hw20 : w2 ≠ []) (hw2 : ∀ c ∈ w2, pyIsSpace c = true)
    (hd0 : d ≠ []) (hd : ∀ c ∈ d, c.isDigit = true)
    (hrest : ∀ c ∈ rest, isClassChar c = true)
    (hpost : ∀ c, post.head? = some c → isClassChar c = false) :
    parse_log_line ⟨"pool=".data ++ p ++ w1 ++ "release=".data ++ r ++ w2 ++
      "upstream_status=".data ++ (d ++ ',' :: rest) ++ post⟩
      = .ok (some (⟨p⟩, ⟨r⟩, natOfDigits d)) := by
  have hu0 : d ++ ',' :: rest ≠ [] := by
    obtain ⟨c0, d', rfl⟩ := List.exists_cons_of_ne_nil hd0
    simp
  have hu : ∀ c ∈ d ++ ',' :: rest, isClassChar c = true := by
    intro c hc
    rcases List.mem_append.1 hc with h | h
    · simp [isClassChar, hd c h]
    · rcases List.mem_cons.1 h with h1 | h1
      · subst h1
        rfl
      · exact hrest c h1
  have hm : matchAt ("pool=".data ++ p ++ w1 ++ "release=".data ++ r ++ w2 ++
      "upstream_status=".data ++ (d ++ ',' :: rest) ++ post)
      = some (p, r, d ++ ',' :: rest) :=
    matchAt_core p w1 r w2 (d ++ ',' :: rest) post hp0 hp hw10 hw1 hr0 hr hw20 hw2 hu0 hu hpost
  have hs : searchLine ("pool=".data ++ p ++ w1 ++ "release=".data ++ r ++ w2 ++
      "upstream_status=".data ++ (d ++ ',' :: rest) ++ post)
      = some (p, r, d ++ ',' :: rest) := by
    have h := searchLine_append [] ("pool=".data ++ p ++ w1 ++ "release=".data ++ r ++ w2 ++
      "upstream_status=".data ++ (d ++ ',' :: rest) ++ post) (p, r, d ++ ',' :: rest)
      (fun i hi => by simp at hi) hm
    simpa using h
  unfold parse_log_line
  rw [show (⟨"pool=".data ++ p ++ w1 ++ "release=".data ++ r ++ w2 ++
    "upstream_status=".data ++ (d ++ ',' :: rest) ++ post⟩ : String).data
    = "pool=".data ++ p ++ w1 ++ "release=".data ++ r ++ w2 ++
      "upstream_status=".data ++ (d ++ ',' :: rest) ++ post from rfl]
  rw [hs]
  dsimp only
  rw [pyStrip_first_comma d rest hd0 hd, pyInt_digits d hd0 hd]

/-- Claim C1: the parser is not total.  On the line
pool=blue release=r1 upstream_status=502 200 — a space-separated status
list, which the spec says is silently skipped — the regex matches with
group 502 200 and int() raises a ValueError, modelled as Except.error. -/
theorem parse_log_line_raises_on_space_separated_list :
    parse_log_line "pool=blue release=r1 upstream_status=502 200" = .error () := by
  rfl

/-- Claim C1, second failing shape: a leading comma in the status list also
raises rather than being skipped. -/
theorem parse_log_line_raises_on_leading_comma :
    parse_log_line "pool=blue release=r1 upstream_status=,200" = .error () := by
  rfl

/-- Claim C2 counterexample: a line containing all three tokens but with
pool= and release= in swapped order yields no record, refuting order
independence. -/
theorem parse_out_of_order_yields_no_record :
    parse_log_line "release=r1 pool=blue upstream_status=200" = .ok none := by
  rfl

/-- Witness for parse_ordered_tokens at a concrete line with a leading
context. -/
theorem parse_ordered_tokens_witness :
    parse_log_line ⟨"t ".data ++ ("pool=".data ++ "blue".data ++ " ".data ++
      "release=".data ++ "r1".data ++ " ".data ++ "upstream_status=".data ++
      "200".data ++ ([] : List Char))⟩ = .ok (some (⟨"blue".data⟩, ⟨"r1".data⟩, 200)) :=
  parse_ordered_tokens "t ".data "blue".data " ".data "r1".data " ".data "200".data
    ([] : List Char) 200
    (by decide) (by decide) (by decide) (by decide) (by decide) (by decide)
    (by decide) (by decide) (by decide) (by decide)
    (by intro c hc; simp at hc)
    (by decide)
    (by rfl)

/-- Witness for parse_first_status at the concrete line of the spec:
pool=blue release=r1 upstream_status=502, 200 parses to status 502. -/
theorem parse_first_status_witness :
    parse_log_line ⟨"pool=".data ++ "blue".data ++ " ".data ++ "release=".data ++
      "r1".data ++ " ".data ++ "upstream_status=".data ++
      ("502".data ++ ',' :: " 200".data) ++ ([] : List Char)⟩
      = .ok (some (⟨"blue".data⟩, ⟨"r1".data⟩, natOfDigits "502".data)) :=
  parse_first_status "blue".data " ".data "r1".data " ".data "502".data " 200".data
    ([] : List Char)
    (by decide) (by decide) (by decide) (by decide) (by decide) (by decide)
    (by decide) (by decide) (by decide) (by decide) (by decide)
    (by intro c hc; simp at hc)

/-- Claim C3: a flap sequence A, B, A, B whose later changes fall within the
cooldown of the first A-to-B alert emits exactly one Failover alert, and the
tracked pool still advances to the last observed pool B (the suppressed
changes update last_pool). -/
theorem failover_flap_once (cd : ℚ) (A B : String) (t0 t1 t2 t3 : ℚ) (w : List ℕ)
    (e : Option ℚ) (hAB : A ≠ B) (h2 : t2 - t1 < cd) (h3 : t3 - t1 < cd) :
    runFailover cd ⟨none, w, none, e⟩ [(A, t0), (B, t1), (A, t2), (B, t3)]
      = (⟨some B, w, some t1, e⟩, 1) := by
  have hBA : B ≠ A := Ne.symm hAB
  have s1 : check_failover cd ⟨none, w, none, e⟩ A t0 = (⟨some A, w, none, e⟩, false) := rfl
  have s2 : check_failover cd ⟨some A, w, none, e⟩ B t1
      = (⟨some B, w, some t1, e⟩, true) := by
    show (if B ≠ A then ((⟨some B, w, some t1, e⟩ : WatcherState), true)
      else ((⟨some A, w, none, e⟩ : WatcherState), false))
      = ((⟨some B, w, some t1, e⟩ : WatcherState), true)
    rw [if_pos hBA]
  have s3 : check_failover cd ⟨some B, w, some t1, e⟩ A t2
      = (⟨some A, w, some t1, e⟩, false) := by
    show (if A ≠ B then
        (if t2 - t1 < cd then ((⟨some A, w, some t1, e⟩ : WatcherState), false)
          else (⟨some A, w, some t2, e⟩, true))
      else ((⟨some B, w, some t1, e⟩ : WatcherState), false))
      = (⟨some A, w, some t1, e⟩, false)
    rw [if_pos hAB, if_pos h2]
  have s4 : check_failover cd ⟨some A, w, some t1, e⟩ B t3
      = (⟨some B, w, some t1, e⟩, false) := by
    show (if B ≠ A then
        (if t3 - t1 < cd then ((⟨some B, w, some t1, e⟩ : WatcherState), false)
          else (⟨some B, w, some t3, e⟩, true))
      else ((⟨some A, w, some t1, e⟩ : WatcherState), false))
      = (⟨some B, w, some t1, e⟩, false)
    rw [if_pos hBA, if_pos h3]
  simp [runFailover, s1, s2, s3, s4]

/-- Witness for failover_flap_once at concrete pools and times. -/
theorem failover_flap_once_witness :
    runFailover 300 ⟨none, [], none, none⟩
      [("blue", 0), ("green", 1), ("blue", 2), ("green", 3)]
      = (⟨some "green", [], some 1, none⟩, 1) :=
  failover_flap_once 300 "blue" "green" 0 1 2 3 [] none
    (by decide) (by norm_num) (by norm_num)

/-- Length after one deque append. -/
theorem dequeAppend_length (N : ℕ) (w : List ℕ) (x : ℕ) (h : w.length ≤ N) :
    (dequeAppend N w x).length = min (w.length + 1) N := by
  unfold dequeAppend
  by_cases hl : w.length < N
  · rw [if_pos hl]
    simp
    omega
  · rw [if_neg hl]
    simp
    omega

/-- Length after a sequence of deque appends. -/
theorem runAppends_length (N : ℕ) (xs : List ℕ) :
    ∀ (w : List ℕ), w.length ≤ N →
      (runAppends N w xs).length = min (w.length + xs.length) N := by
  induction xs with
  | nil =>
    intro w hw
    simp [runAppends]
    omega
  | cons x xs ih =>
    intro w hw
    have h1 : (dequeAppend N w x).length = min (w.length + 1) N :=
      dequeAppend_length N w x hw
    have h2 : (dequeAppend N w x).length ≤ N := by omega
    have h3 : runAppends N w (x :: xs) = runAppends N (dequeAppend N w x) xs := rfl
    rw [h3, ih (dequeAppend N w x) h2, h1]
    simp
    omega

/-- Claim C4: the window length never exceeds the capacity N fixed at
construction; after n appends from empty the length is min n N (so after N
appends it is exactly N); and an append at capacity drops exactly the
oldest entry before inserting the new one. -/
theorem window_bound (N : ℕ) (xs w : List ℕ) (x : ℕ) (hw : w.length ≤ N) :
    (runAppends N [] xs).length = min xs.length N ∧
    (dequeAppend N w x).length ≤ N ∧
    (w.length = N → dequeAppend N w x = (w ++ [x]).drop 1) := by
  refine ⟨?_, ?_, ?_⟩
  · have h := runAppends_length N xs [] (by simp)
    simpa using h
  · rw [dequeAppend_length N w x hw]
    omega
  · intro h
    unfold dequeAppend
    rw [if_neg (by omega), h]
    congr 1
    omega

/-- Witness for window_bound: capacity 2, three appends, and an append at
capacity evicting the oldest entry. -/
theorem window_bound_witness :
    (runAppends 2 [] [201, 202, 203]).length = min ([201, 202, 203] : List ℕ).length 2 ∧
    (dequeAppend 2 [5, 6] 7).length ≤ 2 ∧
    dequeAppend 2 [5, 6] 7 = (([5, 6] : List ℕ) ++ [7]).drop 1 := by
  have h := window_bound 2 [201, 202, 203] [5, 6] 7 (by decide)
  exact ⟨h.1, h.2.1, h.2.2 (by decide)⟩

/-- Claim C5: on a full window with exactly k entries of status at least
500, the detector compares the rate k / N * 100 strictly against the
threshold: equal to the threshold emits no alert, strictly greater (with no
active cooldown) emits one. -/
theorem error_rate_threshold_boundary (N : ℕ) (thr cd now : ℚ) (st : WatcherState)
    (k : ℕ) (hN : 0 < N) (hlen : st.window.length = N)
    (hk : (st.window.filter (fun s => decide (500 ≤ s))).length = k)
    (hcool : ∀ t, st.lastErrorRateAlert = some t → cd ≤ now - t) :
    (check_error_rate N thr cd st now).2 = decide (thr < (k : ℚ) / (N : ℚ) * 100) := by
  unfold check_error_rate
  rw [if_neg (by omega)]
  dsimp only
  rw [hk]
  by_cases hgt : thr < (k : ℚ) / (N : ℚ) * 100
  · rw [if_pos hgt]
    cases hA : st.lastErrorRateAlert with
    | none => simp [hgt]
    | some t =>
      have hc := hcool t hA
      dsimp only
      rw [if_neg (not_lt.2 hc)]
      simp [hgt]
  · rw [if_neg hgt]
    simp [hgt]

/-- Witness for error_rate_threshold_boundary: window [200,200,500,500],
N = 4, threshold 25, rate 50, alert fires. -/
theorem error_rate_threshold_boundary_witness :
    (check_error_rate 4 25 300 ⟨none, [200, 200, 500, 500], none, none⟩ 0).2
      = decide ((25 : ℚ) < ((2 : ℕ) : ℚ) / ((4 : ℕ) : ℚ) * 100) :=
  error_rate_threshold_boundary 4 25 300 0 ⟨none, [200, 200, 500, 500], none, none⟩ 2
    (by decide) (by decide) (by decide)
    (by intro t ht; simp at ht)

/-- Claim C6: with a window strictly smaller than N the error-rate detector
does nothing at all: no alert and no state change, whatever the window
contents. -/
theorem no_premature_evaluation (N : ℕ) (thr cd now : ℚ) (st : WatcherState)
    (h : st.window.length < N) :
    check_error_rate N thr cd st now = (st, false) := by
  unfold check_error_rate
  rw [if_pos h]

/-- Witness for no_premature_evaluation: three entries, all 5xx, capacity
4 — still no alert. -/
theorem no_premature_evaluation_witness :
    check_error_rate 4 2 300 ⟨none, [500, 500, 500], none, none⟩ 0
      = (⟨none, [500, 500, 500], none, none⟩, false) :=
  no_premature_evaluation 4 2 300 0 ⟨none, [500, 500, 500], none, none⟩ (by decide)

/-- Claim C8: the alert dispatcher never propagates an exception to its
caller: its result is always Except.ok, it returns ok false (handled, logged
only) when no webhook is configured, ok false on a transport exception or a
non-200 response, and ok true exactly on a 200 response through a configured
webhook. -/
theorem send_slack_alert_never_raises (webhookConfigured : Bool) (message : String)
    (resp : Option ℕ) :
    send_slack_alert webhookConfigured message resp
      = .ok (decide (webhookConfigured = true ∧ resp = some 200)) := by
  cases webhookConfigured
  · simp [send_slack_alert]
  · cases resp with
    | none => simp [send_slack_alert]
    | some c =>
      simp only [send_slack_alert]
      rw [if_neg (by decide)]
      congr 1
      rw [decide_eq_decide]
      simp

/-- Claim C9: the two detectors touch disjoint state.  The failover detector
leaves the window and the error-rate cooldown unchanged; the error-rate
detector leaves last_pool and the failover cooldown unchanged; and each
detector's alert decision is unaffected by the other detector's state. -/
theorem detector_state_disjoint (cdF cdE thr : ℚ) (N : ℕ) (st : WatcherState)
    (pool : String) (nowF nowE : ℚ) (x : Option ℚ) (y : Option String) (z : Option ℚ) :
    (check_failover cdF st pool nowF).1.lastErrorRateAlert = st.lastErrorRateAlert ∧
    (check_failover cdF st pool nowF).1.window = st.window ∧
    (check_error_rate N thr cdE st nowE).1.lastPool = st.lastPool ∧
    (check_error_rate N thr cdE st nowE).1.lastFailoverAlert = st.lastFailoverAlert ∧
    (check_error_rate N thr cdE st nowE).1.window = st.window ∧
    (check_failover cdF { st with lastErrorRateAlert := x } pool nowF).2
      = (check_failover cdF st pool nowF).2 ∧
    (check_error_rate N thr cdE { st with lastPool := y, lastFailoverAlert := z } nowE).2
      = (check_error_rate N thr cdE st nowE).2 := by
  obtain ⟨lp, w, fa, ea⟩ := st
  refine ⟨?_, ?_, ?_, ?_, ?_, ?_, ?_⟩ <;>
    cases lp <;> cases fa <;> cases ea <;>
      simp [check_failover, check_error_rate] <;>
        split_ifs <;> simp

/-- Claim C10: a line that parses to a record whose first status value is 0
is dropped by the truthiness guard of the processing loop: the window is not
appended to, neither detector runs, and no alert is emitted. -/
theorem zero_status_discarded (N : ℕ) (thr cd now : ℚ) (st : WatcherState)
    (line : String) (p r : String)
    (h : parse_log_line line = .ok (some (p, r, 0))) :
    process_line N thr cd st line now = .ok (st, false, false) := by
  unfold process_line
  rw [h]
  dsimp only
  rw [if_neg (by simp)]

/-- Witness for zero_status_discarded on the line
pool=blue release=r1 upstream_status=0. -/
theorem zero_status_discarded_witness :
    process_line 200 2 300 ⟨none, [], none, none⟩
      "pool=blue release=r1 upstream_status=0" 0
      = .ok (⟨none, [], none, none⟩, false, false) :=
  zero_status_discarded 200 2 300 0 ⟨none, [], none, none⟩
    "pool=blue release=r1 upstream_status=0" "blue" "r1" (by rfl)
